import Mathlib

/-!
# Verification of the canvas scene-graph engine

A shallow embedding of the core of the `canvas-react` 2D scene-graph engine:
the affine transform type (`Matrix2D`), scene nodes with local transforms,
containers with z-ordered children, the render/cull pass, hit testing with
clipping, the property-mutation entry point, and the Transformer gizmo's
drag handlers.  JavaScript numbers are modelled as real numbers (the trig
and square-root functions used by the code are transcendental); the purely
discrete mutation models (child lists, redraw counting) use rationals and
naturals so that concrete instances evaluate by `decide`.
-/

noncomputable section
namespace CanvasReact

open Real

/-- `Math.atan2(y, x)` of the JS host environment, modelled on the reals
(2-argument arctangent with the standard quadrant corrections). -/
def atan2 (y x : ℝ) : ℝ :=
  if 0 < x then Real.arctan (y / x)
  else if x < 0 then
    (if 0 ≤ y then Real.arctan (y / x) + Real.pi else Real.arctan (y / x) - Real.pi)
  else
    (if 0 < y then Real.pi / 2 else if y < 0 then -(Real.pi / 2) else 0)

/-- A point in 2D space (`Point` in `Matrix.ts`). -/
structure Point where
  x : ℝ
  y : ℝ


/-- An axis-aligned rectangle (`Rect` in `Node.ts`). -/
structure Rect where
  x : ℝ
  y : ℝ
  width : ℝ
  height : ℝ


/-- The 2D affine transformation matrix of `Matrix.ts`:
```
| a c e |
| b d f |
| 0 0 1 |
```
The source class mutates `this`; the embedding is purely functional, each
method returning the resulting matrix. -/
structure Matrix2D where
  a : ℝ
  b : ℝ
  c : ℝ
  d : ℝ
  e : ℝ
  f : ℝ


namespace Matrix2D

/-- `new Matrix2D()` / `identity()`: the identity matrix `(1,0,0,1,0,0)`. -/
def identity : Matrix2D := ⟨1, 0, 0, 1, 0, 0⟩

/-- `multiply(matrix)`: Result = This * Matrix. -/
def multiply (m n : Matrix2D) : Matrix2D :=
  { a := m.a * n.a + m.c * n.b
    b := m.b * n.a + m.d * n.b
    c := m.a * n.c + m.c * n.d
    d := m.b * n.c + m.d * n.d
    e := m.a * n.e + m.c * n.f + m.e
    f := m.b * n.e + m.d * n.f + m.f }

/-- `translate(x, y)`: right-multiplies a translation matrix. -/
def translate (m : Matrix2D) (x y : ℝ) : Matrix2D :=
  m.multiply ⟨1, 0, 0, 1, x, y⟩

/-- `rotate(angle)`: right-multiplies a rotation matrix. -/
def rotate (m : Matrix2D) (angle : ℝ) : Matrix2D :=
  m.multiply ⟨Real.cos angle, Real.sin angle, -Real.sin angle, Real.cos angle, 0, 0⟩

/-- `scale(x, y)`: right-multiplies a scaling matrix. -/
def scale (m : Matrix2D) (x y : ℝ) : Matrix2D :=
  m.multiply ⟨x, 0, 0, y, 0, 0⟩

/-- The determinant `a*d - b*c` used by `invert()`. -/
def det (m : Matrix2D) : ℝ := m.a * m.d - m.b * m.c

/-- `invert()`: closed-form cofactor inverse; if the determinant is exactly
zero it returns a fresh identity matrix instead of failing. -/
def invert (m : Matrix2D) : Matrix2D :=
  if m.a * m.d - m.b * m.c = 0 then identity
  else
    let invDet := 1 / (m.a * m.d - m.b * m.c)
    { a := m.d * invDet
      b := -m.b * invDet
      c := -m.c * invDet
      d := m.a * invDet
      e := (m.c * m.f - m.d * m.e) * invDet
      f := (m.b * m.e - m.a * m.f) * invDet }

/-- `transformPoint(point)`. -/
def transformPoint (m : Matrix2D) (p : Point) : Point :=
  ⟨m.a * p.x + m.c * p.y + m.e, m.b * p.x + m.d * p.y + m.f⟩

/-- The record returned by `decompose()`. -/
structure Decomposed where
  x : ℝ
  y : ℝ
  scaleX : ℝ
  scaleY : ℝ
  rotation : ℝ
  skewX : ℝ
  skewY : ℝ

/-- `decompose()`: extracts translation, rotation, scale and skew with
`atan2`-based angle recovery and an epsilon of `1e-5` for the no-skew
test. -/
def decompose (m : Matrix2D) : Decomposed :=
  let skewX := -(atan2 (-m.c) m.d)
  let skewY := atan2 m.b m.a
  let delta := |skewX + skewY|
  if delta < 0.00001 ∨ |Real.pi * 2 - delta| < 0.00001 then
    let rot0 := skewY
    let rotation :=
      if m.a < 0 ∧ 0 ≤ m.d then (if rot0 ≤ 0 then rot0 + Real.pi else rot0 - Real.pi)
      else rot0
    { x := m.e, y := m.f
      scaleX := Real.sqrt (m.a * m.a + m.b * m.b)
      scaleY := Real.sqrt (m.c * m.c + m.d * m.d)
      rotation := rotation, skewX := skewX, skewY := skewY }
  else
    { x := m.e, y := m.f, scaleX := m.a, scaleY := m.d
      rotation := 0, skewX := skewX, skewY := skewY }

end Matrix2D

/-- C1: for every transform `M` with nonzero determinant,
`M.invert().multiply(M)` is exactly the identity (hence within `1e-6` per
coefficient) and `M.invert()` applied to `M.transformPoint(p)` recovers `p`
exactly; for determinant exactly zero, `invert()` returns the identity
transform `(1,0,0,1,0,0)`. -/
theorem invert_spec (M : Matrix2D) (p : Point) :
    (M.det ≠ 0 →
      M.invert.multiply M = Matrix2D.identity ∧
      M.invert.transformPoint (M.transformPoint p) = p) ∧
    (M.det = 0 → M.invert = Matrix2D.identity) := by
  constructor
  · intro hdet
    rw [Matrix2D.det] at hdet
    constructor
    · simp only [Matrix2D.invert, if_neg hdet, Matrix2D.multiply, Matrix2D.identity]
      obtain ⟨a, b, c, d, e, f⟩ := M
      simp only [Matrix2D.mk.injEq] at *
      refine ⟨?_, ?_, ?_, ?_, ?_, ?_⟩ <;> field_simp <;> ring
    · simp only [Matrix2D.invert, if_neg hdet, Matrix2D.transformPoint]
      obtain ⟨a, b, c, d, e, f⟩ := M
      obtain ⟨px, py⟩ := p
      simp only [Point.mk.injEq] at *
      constructor <;> field_simp <;> ring
  · intro hdet
    rw [Matrix2D.det] at hdet
    simp only [Matrix2D.invert, if_pos hdet]

/-- Witness for `invert_spec` at the concrete matrix `(2,0,0,3,5,7)`
(determinant `6`) and point `(1,1)`, and at the singular matrix
`(1,2,2,4,0,0)` (determinant `0`). -/
theorem invert_spec_witness :
    ((Matrix2D.mk 2 0 0 3 5 7).det ≠ 0 ∧
      (Matrix2D.mk 2 0 0 3 5 7).invert.multiply (Matrix2D.mk 2 0 0 3 5 7) =
        Matrix2D.identity ∧
      (Matrix2D.mk 2 0 0 3 5 7).invert.transformPoint
        ((Matrix2D.mk 2 0 0 3 5 7).transformPoint ⟨1, 1⟩) = ⟨1, 1⟩) ∧
    ((Matrix2D.mk 1 2 2 4 0 0).det = 0 ∧
      (Matrix2D.mk 1 2 2 4 0 0).invert = Matrix2D.identity) := by
  have h1 : (Matrix2D.mk 2 0 0 3 5 7).det ≠ 0 := by
    simp only [Matrix2D.det]; norm_num
  have h2 : (Matrix2D.mk 1 2 2 4 0 0).det = 0 := by
    simp only [Matrix2D.det]; norm_num
  exact ⟨⟨h1, (invert_spec (Matrix2D.mk 2 0 0 3 5 7) ⟨1, 1⟩).1 h1⟩,
         ⟨h2, (invert_spec (Matrix2D.mk 1 2 2 4 0 0) ⟨1, 1⟩).2 h2⟩⟩

/-- The transform-relevant state of a `Node` (`Node.ts`): position, rotation
(radians), per-axis scale and z-index.  `id` models JavaScript object
identity so that hit-test results and draw calls can be traced. -/
structure NodeState where
  id : ℕ
  x : ℝ
  y : ℝ
  rotation : ℝ
  scaleX : ℝ
  scaleY : ℝ
  zIndex : ℝ

/-- `Node.getTransform()`: starting from a fresh identity matrix, apply
`translate(x, y)`, then `rotate(rotation)`, then `scale(scaleX, scaleY)`. -/
def getTransform (st : NodeState) : Matrix2D :=
  ((Matrix2D.identity.translate st.x st.y).rotate st.rotation).scale st.scaleX st.scaleY

/-- `Node.getGlobalTransform()`: walk the parent chain upward, composing
`matrix = parentMatrix.multiply(matrix)` at each step.  `anc` lists the
ancestors' states from the immediate parent up to the root. -/
def globalTransformOf (anc : List NodeState) (st : NodeState) : Matrix2D :=
  anc.foldl (fun m p => (getTransform p).multiply m) (getTransform st)

/-- The four-corner mapping shared by `Node.getGlobalBounds()` and
`Container.getSelfBounds()`: transform the corners of `b` by `m` and return
the enclosing axis-aligned box (`Math.min`/`Math.max` over the corners). -/
def boundsThrough (m : Matrix2D) (b : Rect) : Rect :=
  let p1 := m.transformPoint ⟨b.x, b.y⟩
  let p2 := m.transformPoint ⟨b.x + b.width, b.y⟩
  let p3 := m.transformPoint ⟨b.x, b.y + b.height⟩
  let p4 := m.transformPoint ⟨b.x + b.width, b.y + b.height⟩
  let minX := min (min (min p1.x p2.x) p3.x) p4.x
  let maxX := max (max (max p1.x p2.x) p3.x) p4.x
  let minY := min (min (min p1.y p2.y) p3.y) p4.y
  let maxY := max (max (max p1.y p2.y) p3.y) p4.y
  ⟨minX, minY, maxX - minX, maxY - minY⟩

/-- `Node.getGlobalBounds()` computed from an ancestor chain, a node state
and the node's self bounds. -/
def globalBoundsOf (anc : List NodeState) (st : NodeState) (sb : Rect) : Rect :=
  boundsThrough (globalTransformOf anc st) sb

/-- A scene-graph tree.  `leaf st w h` is a `Rect` shape node with resolved
`width`/`height` props (`Rect.ts`; defaults already applied); `group st clip
children` is a `Container` (`Container.ts`), where `clip = some r` models
`props.clip = true` with resolved clip rectangle `r` (defaults
`0,0,100,100` already applied) and `clip = none` models clipping off. -/
inductive SceneNode where
  | leaf (st : NodeState) (width height : ℝ)
  | group (st : NodeState) (clip : Option Rect) (children : List SceneNode)

/-- The `NodeState` of a scene node. -/
def SceneNode.state : SceneNode → NodeState
  | .leaf st _ _ => st
  | .group st _ _ => st

mutual
/-- `getSelfBounds()`: for a `Rect`, `{0, 0, width, height}`; for a
`Container`, the union of each child's self bounds mapped through the
child's local transform (zero bounds when there are no children). -/
def SceneNode.getSelfBounds : SceneNode → Rect
  | .leaf _ w h => ⟨0, 0, w, h⟩
  | .group _ _ children =>
    match childCornerBoxes children with
    | [] => ⟨0, 0, 0, 0⟩
    | r :: rs =>
      let minX := rs.foldl (fun acc b => min acc b.x) r.x
      let minY := rs.foldl (fun acc b => min acc b.y) r.y
      let maxX := rs.foldl (fun acc b => max acc (b.x + b.width)) (r.x + r.width)
      let maxY := rs.foldl (fun acc b => max acc (b.y + b.height)) (r.y + r.height)
      ⟨minX, minY, maxX - minX, maxY - minY⟩

/-- The per-child corner boxes aggregated by `Container.getSelfBounds()`:
each child contributes the AABB of its self bounds mapped through its own
local transform. -/
def childCornerBoxes : List SceneNode → List Rect
  | [] => []
  | c :: cs =>
    boundsThrough (getTransform c.state) c.getSelfBounds :: childCornerBoxes cs
end

/-- `Node.getGlobalBounds()` of a scene node. -/
def SceneNode.getGlobalBounds (anc : List NodeState) (n : SceneNode) : Rect :=
  globalBoundsOf anc n.state n.getSelfBounds

/-- The `isOutside` test of `Node.render()`: the bounds box and the viewport
are disjoint (for boxes of positive size this is exactly "lies entirely
outside the viewport"). -/
def isOutside (b v : Rect) : Prop :=
  b.x > v.x + v.width ∨ b.x + b.width < v.x ∨
  b.y > v.y + v.height ∨ b.y + b.height < v.y

instance (b v : Rect) : Decidable (isOutside b v) := by
  unfold isOutside; infer_instance

mutual
/-- `Node.render(ctx, viewport)` / `Container.draw`: the sequence of node
ids whose `draw` is invoked, in invocation order.  A node whose global
bounds have positive size and are outside the viewport is culled (returns
without drawing); a container's `draw` renders its children in list
order. -/
def renderTrace (anc : List NodeState) (viewport : Option Rect) :
    SceneNode → List ℕ
  | .leaf st w h =>
    match viewport with
    | some v =>
      let bounds := globalBoundsOf anc st (SceneNode.leaf st w h).getSelfBounds
      if bounds.width > 0 ∧ bounds.height > 0 ∧ isOutside bounds v then []
      else [st.id]
    | none => [st.id]
  | .group st clip children =>
    match viewport with
    | some v =>
      let bounds := globalBoundsOf anc st (SceneNode.group st clip children).getSelfBounds
      if bounds.width > 0 ∧ bounds.height > 0 ∧ isOutside bounds v then []
      else st.id :: renderTraceList (st :: anc) viewport children
    | none => st.id :: renderTraceList (st :: anc) viewport children

/-- Renders a child list in order (the body of `Container.draw`). -/
def renderTraceList (anc : List NodeState) (viewport : Option Rect) :
    List SceneNode → List ℕ
  | [] => []
  | c :: cs => renderTrace anc viewport c ++ renderTraceList anc viewport cs
end

mutual
/-- `hitTest(globalPoint)`.  For a leaf (`Node.hitTest`): quick AABB
rejection when the global bounds have positive size, then conversion of the
point to local space via the inverted global transform and the
shape-specific containment test (`Rect.isPointInShape`).  For a group
(`Container.hitTest`): the clip gate first, then the children in reverse
list order (top-most first), returning the first non-null child hit. -/
def SceneNode.hitTest (anc : List NodeState) (p : Point) :
    SceneNode → Option ℕ
  | .leaf st w h =>
    let gb := globalBoundsOf anc st ⟨0, 0, w, h⟩
    if gb.width > 0 ∧ gb.height > 0 ∧
        (p.x < gb.x ∨ p.x > gb.x + gb.width ∨ p.y < gb.y ∨ p.y > gb.y + gb.height)
    then none
    else
      let lp := (globalTransformOf anc st).invert.transformPoint p
      if 0 ≤ lp.x ∧ lp.x ≤ w ∧ 0 ≤ lp.y ∧ lp.y ≤ h then some st.id else none
  | .group st clip children =>
    match clip with
    | some cr =>
      let lp := (globalTransformOf anc st).invert.transformPoint p
      if lp.x < cr.x ∨ lp.x > cr.x + cr.width ∨
          lp.y < cr.y ∨ lp.y > cr.y + cr.height
      then none
      else hitTestChildren (st :: anc) p children
    | none => hitTestChildren (st :: anc) p children

/-- The child loop of `Container.hitTest`: iterate from the last child
(highest z-index after sorting) to the first, returning the first hit. -/
def hitTestChildren (anc : List NodeState) (p : Point) :
    List SceneNode → Option ℕ
  | [] => none
  | c :: cs =>
    match hitTestChildren anc p cs with
    | some i => some i
    | none => SceneNode.hitTest anc p c
end

/-! ### Evaluation lemmas for unrotated transforms -/

theorem getTransform_eq_of_rotation_zero (st : NodeState) (h : st.rotation = 0) :
    getTransform st = ⟨st.scaleX, 0, 0, st.scaleY, st.x, st.y⟩ := by
  simp only [getTransform, h, Matrix2D.identity, Matrix2D.translate, Matrix2D.rotate,
    Matrix2D.scale, Matrix2D.multiply, Real.cos_zero, Real.sin_zero]
  simp only [Matrix2D.mk.injEq]
  norm_num

theorem multiply_diag (s t e f s' t' e' f' : ℝ) :
    (Matrix2D.mk s 0 0 t e f).multiply ⟨s', 0, 0, t', e', f'⟩ =
      ⟨s * s', 0, 0, t * t', s * e' + e, t * f' + f⟩ := by
  simp only [Matrix2D.multiply, Matrix2D.mk.injEq]
  norm_num

theorem invert_diag (s t e f : ℝ) (hs : s ≠ 0) (ht : t ≠ 0) :
    (Matrix2D.mk s 0 0 t e f).invert = ⟨1 / s, 0, 0, 1 / t, -(e / s), -(f / t)⟩ := by
  have hdet : s * t - 0 * 0 ≠ 0 := by simpa using mul_ne_zero hs ht
  simp only [Matrix2D.invert, hdet, if_false, if_neg hdet, Matrix2D.mk.injEq]
  refine ⟨?_, ?_, ?_, ?_, ?_, ?_⟩ <;> field_simp <;> ring

theorem min_pqpq (P Q : ℝ) (h : P ≤ Q) : P ⊓ Q ⊓ P ⊓ Q = P := by
  rw [min_eq_left h, min_self, min_eq_left h]

theorem min_ppqq (P Q : ℝ) (h : P ≤ Q) : P ⊓ P ⊓ Q ⊓ Q = P := by
  rw [min_self, min_eq_left h, min_eq_left h]

theorem max_pqpq (P Q : ℝ) (h : P ≤ Q) : P ⊔ Q ⊔ P ⊔ Q = Q := by
  rw [max_eq_right h, max_eq_left h, max_self]

theorem max_ppqq (P Q : ℝ) (h : P ≤ Q) : P ⊔ P ⊔ Q ⊔ Q = Q := by
  rw [max_self, max_eq_right h, max_self]

theorem boundsThrough_diag (s t e f : ℝ) (b : Rect)
    (hs : 0 ≤ s) (ht : 0 ≤ t) (hw : 0 ≤ b.width) (hh : 0 ≤ b.height) :
    boundsThrough ⟨s, 0, 0, t, e, f⟩ b =
      ⟨s * b.x + e, t * b.y + f, s * b.width, t * b.height⟩ := by
  have h1 : s * b.x + e ≤ s * b.x + s * b.width + e := by nlinarith
  have h2 : t * b.y + f ≤ t * b.y + t * b.height + f := by nlinarith
  simp only [boundsThrough, Matrix2D.transformPoint, Rect.mk.injEq]
  refine ⟨?_, ?_, ?_, ?_⟩
  · ring_nf; exact min_pqpq _ _ h1
  · ring_nf; exact min_ppqq _ _ h2
  · ring_nf; rw [min_pqpq _ _ h1, max_pqpq _ _ h1]; ring
  · ring_nf; rw [min_ppqq _ _ h2, max_ppqq _ _ h2]; ring

/-- C2: `getGlobalTransform` composes ancestor local transforms in
root-to-node application order: a node whose local transform is
`translate(5,5)` under a parent whose local transform is `translate(10,10)`
has global transform `translate(15,15)`, and with self bounds
`{0,0,20,20}` its global bounds are `{15,15,20,20}`. -/
theorem globalTransform_compose_spec (par st : NodeState)
    (hpx : par.x = 10) (hpy : par.y = 10) (hpr : par.rotation = 0)
    (hpsx : par.scaleX = 1) (hpsy : par.scaleY = 1)
    (hx : st.x = 5) (hy : st.y = 5) (hr : st.rotation = 0)
    (hsx : st.scaleX = 1) (hsy : st.scaleY = 1) :
    globalTransformOf [par] st = ⟨1, 0, 0, 1, 15, 15⟩ ∧
    globalBoundsOf [par] st ⟨0, 0, 20, 20⟩ = ⟨15, 15, 20, 20⟩ := by
  have hg : globalTransformOf [par] st = ⟨1, 0, 0, 1, 15, 15⟩ := by
    simp only [globalTransformOf, List.foldl,
      getTransform_eq_of_rotation_zero st hr,
      getTransform_eq_of_rotation_zero par hpr,
      hx, hy, hsx, hsy, hpx, hpy, hpsx, hpsy, multiply_diag]
    simp only [Matrix2D.mk.injEq]
    norm_num
  refine ⟨hg, ?_⟩
  rw [globalBoundsOf, hg, boundsThrough_diag] <;> norm_num

/-- Witness for `globalTransform_compose_spec` at concrete nodes. -/
theorem globalTransform_compose_spec_witness :
    globalTransformOf [⟨0, 10, 10, 0, 1, 1, 0⟩] ⟨1, 5, 5, 0, 1, 1, 0⟩ =
      ⟨1, 0, 0, 1, 15, 15⟩ ∧
    globalBoundsOf [⟨0, 10, 10, 0, 1, 1, 0⟩] ⟨1, 5, 5, 0, 1, 1, 0⟩ ⟨0, 0, 20, 20⟩ =
      ⟨15, 15, 20, 20⟩ :=
  globalTransform_compose_spec ⟨0, 10, 10, 0, 1, 1, 0⟩ ⟨1, 5, 5, 0, 1, 1, 0⟩
    rfl rfl rfl rfl rfl rfl rfl rfl rfl rfl

/-- C3: if a node's global bounds have positive width and height and lie
entirely outside the viewport, `render` returns without invoking `draw`;
for a container the whole subtree is skipped (the draw trace is empty, so
no descendant's draw is invoked either, even if a descendant's own bounds
would individually intersect the viewport). -/
theorem render_cull_spec (anc : List NodeState) (n : SceneNode) (v : Rect)
    (hw : 0 < (n.getGlobalBounds anc).width)
    (hh : 0 < (n.getGlobalBounds anc).height)
    (hout : isOutside (n.getGlobalBounds anc) v) :
    renderTrace anc (some v) n = [] := by
  cases n with
  | leaf st w h =>
    simp only [SceneNode.getGlobalBounds, SceneNode.state] at hw hh hout
    simp only [renderTrace]
    rw [if_pos ⟨hw, hh, hout⟩]
  | group st clip children =>
    simp only [SceneNode.getGlobalBounds, SceneNode.state] at hw hh hout
    simp only [renderTrace]
    rw [if_pos ⟨hw, hh, hout⟩]

/-- Witness for `render_cull_spec`: a container at `x = -500` holding a
50×50 child is culled as a unit against the viewport `{0,0,800,600}` (its
global bounds are `{-500,0,50,50}`), so neither its own draw nor the
child's draw is invoked. -/
theorem render_cull_spec_witness :
    (SceneNode.group ⟨0, -500, 0, 0, 1, 1, 0⟩ none
        [SceneNode.leaf ⟨1, 0, 0, 0, 1, 1, 0⟩ 50 50]).getGlobalBounds [] =
      ⟨-500, 0, 50, 50⟩ ∧
    renderTrace [] (some ⟨0, 0, 800, 600⟩)
      (SceneNode.group ⟨0, -500, 0, 0, 1, 1, 0⟩ none
        [SceneNode.leaf ⟨1, 0, 0, 0, 1, 1, 0⟩ 50 50]) = [] := by
  have hsb : (SceneNode.group ⟨0, -500, 0, 0, 1, 1, 0⟩ none
      [SceneNode.leaf ⟨1, 0, 0, 0, 1, 1, 0⟩ 50 50]).getSelfBounds =
      ⟨0, 0, 50, 50⟩ := by
    simp only [SceneNode.getSelfBounds, childCornerBoxes, SceneNode.state]
    rw [getTransform_eq_of_rotation_zero ⟨1, 0, 0, 0, 1, 1, 0⟩ rfl]
    rw [boundsThrough_diag _ _ _ _ ⟨0, 0, 50, 50⟩ (by norm_num) (by norm_num)
      (by norm_num) (by norm_num)]
    simp only [List.foldl, Rect.mk.injEq]
    norm_num
  have hb : (SceneNode.group ⟨0, -500, 0, 0, 1, 1, 0⟩ none
      [SceneNode.leaf ⟨1, 0, 0, 0, 1, 1, 0⟩ 50 50]).getGlobalBounds [] =
      ⟨-500, 0, 50, 50⟩ := by
    rw [SceneNode.getGlobalBounds, hsb]
    simp only [SceneNode.state, globalBoundsOf, globalTransformOf, List.foldl]
    rw [getTransform_eq_of_rotation_zero _ rfl]
    rw [boundsThrough_diag _ _ _ _ ⟨0, 0, 50, 50⟩ (by norm_num) (by norm_num)
      (by norm_num) (by norm_num)]
    simp only [Rect.mk.injEq]
    norm_num
  refine ⟨hb, render_cull_spec [] _ ⟨0, 0, 800, 600⟩ ?_ ?_ ?_⟩
  · rw [hb]; norm_num
  · rw [hb]; norm_num
  · rw [hb]; right; left; norm_num

/-- Evaluation of `Node.hitTest` for a `Rect` leaf whose global transform is
a pure translation `(e, f)`: a point inside the translated box is a hit. -/
theorem leaf_hitTest_of_translate (anc : List NodeState) (st : NodeState)
    (w h e f : ℝ) (p : Point)
    (hm : globalTransformOf anc st = ⟨1, 0, 0, 1, e, f⟩)
    (hw : 0 < w) (hh : 0 < h)
    (hin : e ≤ p.x ∧ p.x ≤ e + w ∧ f ≤ p.y ∧ p.y ≤ f + h) :
    SceneNode.hitTest anc p (.leaf st w h) = some st.id := by
  obtain ⟨h1, h2, h3, h4⟩ := hin
  have hgb : globalBoundsOf anc st ⟨0, 0, w, h⟩ = ⟨e, f, w, h⟩ := by
    rw [globalBoundsOf, hm,
      boundsThrough_diag _ _ _ _ ⟨0, 0, w, h⟩ (by norm_num) (by norm_num)
        (by norm_num [le_of_lt hw]) (by norm_num [le_of_lt hh])]
    simp only [Rect.mk.injEq]
    norm_num
  have hinv : (globalTransformOf anc st).invert = ⟨1, 0, 0, 1, -e, -f⟩ := by
    rw [hm, invert_diag 1 1 e f (by norm_num) (by norm_num)]
    simp only [Matrix2D.mk.injEq]
    norm_num
  simp only [SceneNode.hitTest, hgb, hinv, Matrix2D.transformPoint]
  rw [if_neg, if_pos]
  · refine ⟨by linarith, by linarith, by linarith, by linarith⟩
  · intro hcon
    rcases hcon.2.2 with hc | hc | hc | hc <;> (try simp at hc) <;> linarith

/-- C5: `Container.hitTest` checks children in reverse child-list order
(descending z-index, top-most first) and returns the first non-null child
hit: for two overlapping siblings stored in ascending z-order `[a, b]` with
z-indices 1 and 2, a point that hits both returns `b`'s hit (the z = 2
node). -/
theorem hitTest_topmost_first (anc : List NodeState) (st : NodeState)
    (a b : SceneNode) (p : Point) (i j : ℕ)
    (hza : a.state.zIndex = 1) (hzb : b.state.zIndex = 2)
    (ha : a.hitTest (st :: anc) p = some i)
    (hb : b.hitTest (st :: anc) p = some j) :
    SceneNode.hitTest anc p (.group st none [a, b]) = some j := by
  simp only [SceneNode.hitTest, hitTestChildren, hb]

/-- Witness for `hitTest_topmost_first`: two 100×100 rect siblings at
`(0,0)` (z = 1, id 1) and `(10,10)` (z = 2, id 2) under an untransformed
root container; the point `(50,50)` lies inside both and hit-testing the
root returns node 2. -/
theorem hitTest_topmost_first_witness :
    SceneNode.hitTest [] ⟨50, 50⟩
      (.group ⟨0, 0, 0, 0, 1, 1, 0⟩ none
        [.leaf ⟨1, 0, 0, 0, 1, 1, 1⟩ 100 100,
         .leaf ⟨2, 10, 10, 0, 1, 1, 2⟩ 100 100]) = some 2 := by
  have hma : globalTransformOf [⟨0, 0, 0, 0, 1, 1, 0⟩] ⟨1, 0, 0, 0, 1, 1, 1⟩ =
      ⟨1, 0, 0, 1, 0, 0⟩ := by
    simp only [globalTransformOf, List.foldl]
    rw [getTransform_eq_of_rotation_zero ⟨1, 0, 0, 0, 1, 1, 1⟩ rfl,
      getTransform_eq_of_rotation_zero ⟨0, 0, 0, 0, 1, 1, 0⟩ rfl, multiply_diag]
    simp only [Matrix2D.mk.injEq]
    norm_num
  have hmb : globalTransformOf [⟨0, 0, 0, 0, 1, 1, 0⟩] ⟨2, 10, 10, 0, 1, 1, 2⟩ =
      ⟨1, 0, 0, 1, 10, 10⟩ := by
    simp only [globalTransformOf, List.foldl]
    rw [getTransform_eq_of_rotation_zero ⟨2, 10, 10, 0, 1, 1, 2⟩ rfl,
      getTransform_eq_of_rotation_zero ⟨0, 0, 0, 0, 1, 1, 0⟩ rfl, multiply_diag]
    simp only [Matrix2D.mk.injEq]
    norm_num
  exact hitTest_topmost_first [] ⟨0, 0, 0, 0, 1, 1, 0⟩ _ _ ⟨50, 50⟩ 1 2 rfl rfl
    (leaf_hitTest_of_translate _ _ 100 100 0 0 ⟨50, 50⟩ hma (by norm_num)
      (by norm_num) (by norm_num))
    (leaf_hitTest_of_translate _ _ 100 100 10 10 ⟨50, 50⟩ hmb (by norm_num)
      (by norm_num) (by norm_num))

/-- C6: for a container with clipping enabled, `hitTest` converts the
global point to the container's local space and returns `null` whenever the
local point lies outside the configured clip rectangle, before any child is
tested (the result is `none` for every child list). -/
theorem hitTest_clip_gate (anc : List NodeState) (st : NodeState) (cr : Rect)
    (children : List SceneNode) (p : Point)
    (hout :
      ((globalTransformOf anc st).invert.transformPoint p).x < cr.x ∨
      ((globalTransformOf anc st).invert.transformPoint p).x > cr.x + cr.width ∨
      ((globalTransformOf anc st).invert.transformPoint p).y < cr.y ∨
      ((globalTransformOf anc st).invert.transformPoint p).y > cr.y + cr.height) :
    SceneNode.hitTest anc p (.group st (some cr) children) = none := by
  simp only [SceneNode.hitTest]
  rw [if_pos hout]

/-- Witness for `hitTest_clip_gate`: an untransformed container with
`clip = true` and clip rect `{0,0,50,50}` whose 10×10 child sits at
`(60,60)`.  The point `(65,65)` hits the child when the child is tested
directly, yet hit-testing the container returns `none` because the clip
gate rejects the point first. -/
theorem hitTest_clip_gate_witness :
    SceneNode.hitTest [⟨0, 0, 0, 0, 1, 1, 0⟩] ⟨65, 65⟩
      (.leaf ⟨1, 60, 60, 0, 1, 1, 0⟩ 10 10) = some 1 ∧
    SceneNode.hitTest [] ⟨65, 65⟩
      (.group ⟨0, 0, 0, 0, 1, 1, 0⟩ (some ⟨0, 0, 50, 50⟩)
        [.leaf ⟨1, 60, 60, 0, 1, 1, 0⟩ 10 10]) = none := by
  have hmc : globalTransformOf [⟨0, 0, 0, 0, 1, 1, 0⟩] ⟨1, 60, 60, 0, 1, 1, 0⟩ =
      ⟨1, 0, 0, 1, 60, 60⟩ := by
    simp only [globalTransformOf, List.foldl]
    rw [getTransform_eq_of_rotation_zero ⟨1, 60, 60, 0, 1, 1, 0⟩ rfl,
      getTransform_eq_of_rotation_zero ⟨0, 0, 0, 0, 1, 1, 0⟩ rfl, multiply_diag]
    simp only [Matrix2D.mk.injEq]
    norm_num
  have hmr : globalTransformOf [] (⟨0, 0, 0, 0, 1, 1, 0⟩ : NodeState) =
      ⟨1, 0, 0, 1, 0, 0⟩ := by
    simp only [globalTransformOf, List.foldl]
    rw [getTransform_eq_of_rotation_zero ⟨0, 0, 0, 0, 1, 1, 0⟩ rfl]
  constructor
  · exact leaf_hitTest_of_translate _ _ 10 10 60 60 ⟨65, 65⟩ hmc (by norm_num)
      (by norm_num) (by norm_num)
  · refine hitTest_clip_gate [] _ ⟨0, 0, 50, 50⟩ _ ⟨65, 65⟩ ?_
    rw [hmr, invert_diag 1 1 0 0 (by norm_num) (by norm_num)]
    simp only [Matrix2D.transformPoint]
    norm_num

/-! ### Container child-list mutation (`Container.ts`, `Node.ts` setters)

The list mutations are discrete, so they are modelled over `ℚ`/`ℕ` (exact
JS number arithmetic for the fields involved), keeping every concrete
instance evaluable by `decide`. -/

/-- A child entry of a container: object identity (`id`) plus the child's
`zIndex` property. -/
structure ZChild where
  id : ℕ
  zIndex : ℚ
deriving DecidableEq

/-- The comparator order of `sortChildren`'s `(a, b) => a.zIndex - b.zIndex`. -/
def zOrder (a b : ZChild) : Prop := a.zIndex ≤ b.zIndex

instance : DecidableRel zOrder := fun a b => by
  unfold zOrder; infer_instance

instance : IsTotal ZChild zOrder := ⟨fun a b => le_total a.zIndex b.zIndex⟩

instance : IsTrans ZChild zOrder := ⟨fun _ _ _ => le_trans⟩

/-- `Container.sortChildren()`: stable ascending sort of the child list by
`zIndex` (JS `Array.prototype.sort` with comparator `a.zIndex - b.zIndex`
is a stable sort; modelled by insertion sort, which is stable). -/
def sortChildren (l : List ZChild) : List ZChild := l.insertionSort zOrder

/-- `Container.add(node)`: append the child, then `sortChildren()` (the
redraw request it also issues is tracked in the `PropNode` model). -/
def addChild (l : List ZChild) (c : ZChild) : List ZChild :=
  sortChildren (l ++ [c])

/-- The `zIndex` setter reached through `setProps({zIndex})` on a child:
if the new value differs from the current one, the child's field is
updated and the parent container re-sorts its children; otherwise nothing
happens.  `i` is the identity of the mutated child. -/
def setChildZIndex (l : List ZChild) (i : ℕ) (z : ℚ) : List ZChild :=
  match l.find? (fun c => c.id = i) with
  | none => l
  | some c =>
    if c.zIndex = z then l
    else sortChildren (l.map fun c2 => if c2.id = i then { c2 with zIndex := z } else c2)

/-- The container invariant: the child sequence is ascending by z-index. -/
def SortedByZ (l : List ZChild) : Prop := List.Sorted zOrder l

/-- C4: the child sequence is kept sorted ascending by z-index (the paint
order: `Container.draw` paints children in sequence order), re-established
synchronously on `add` and on a child's z-index change; concretely, after
`setProperties({zIndex: 30})` on the child previously at z-index 10 among
siblings at 5 and 20, the paint order is z-indices 5, 20, 30. -/
theorem zorder_invariant (l : List ZChild) (c : ZChild) (i : ℕ) (z : ℚ)
    (hl : SortedByZ l) :
    SortedByZ (addChild l c) ∧
    SortedByZ (setChildZIndex l i z) ∧
    (setChildZIndex [⟨10, 5⟩, ⟨11, 10⟩, ⟨12, 20⟩] 11 30).map ZChild.zIndex =
      [5, 20, 30] := by
  refine ⟨List.sorted_insertionSort zOrder _, ?_, by decide⟩
  unfold setChildZIndex
  split
  · exact hl
  · split
    · exact hl
    · exact List.sorted_insertionSort zOrder _

/-- Witness for `zorder_invariant` at a concrete sorted child list. -/
theorem zorder_invariant_witness :
    SortedByZ [⟨10, 5⟩, ⟨11, 10⟩, ⟨12, 20⟩] ∧
    SortedByZ (addChild [⟨10, 5⟩, ⟨11, 10⟩, ⟨12, 20⟩] ⟨13, 7⟩) ∧
    SortedByZ (setChildZIndex [⟨10, 5⟩, ⟨11, 10⟩, ⟨12, 20⟩] 11 30) ∧
    (setChildZIndex [⟨10, 5⟩, ⟨11, 10⟩, ⟨12, 20⟩] 11 30).map ZChild.zIndex =
      [5, 20, 30] := by
  have hl : SortedByZ [⟨10, 5⟩, ⟨11, 10⟩, ⟨12, 20⟩] := by
    unfold SortedByZ zOrder
    decide
  have h := zorder_invariant [⟨10, 5⟩, ⟨11, 10⟩, ⟨12, 20⟩] ⟨13, 7⟩ 11 30 hl
  exact ⟨hl, h.1, h.2.1, h.2.2⟩

/-! ### The `setProps` entry point and redraw requests (`Node.ts`)

`redrawCount` counts the invocations of `this.requestRedraw()` caused by a
mutation (the bubbling itself carries no data). -/

/-- The property state of a `Node` together with the number of redraw
requests it has issued. -/
structure PropNode where
  x : ℚ
  y : ℚ
  rotation : ℚ
  scaleX : ℚ
  scaleY : ℚ
  zIndex : ℚ
  redrawCount : ℕ
deriving DecidableEq

/-- The `x` setter: dirty-check, then assign and request a redraw. -/
def setX (n : PropNode) (v : ℚ) : PropNode :=
  if n.x = v then n else { n with x := v, redrawCount := n.redrawCount + 1 }

/-- The `y` setter. -/
def setY (n : PropNode) (v : ℚ) : PropNode :=
  if n.y = v then n else { n with y := v, redrawCount := n.redrawCount + 1 }

/-- The `rotation` setter. -/
def setRotation (n : PropNode) (v : ℚ) : PropNode :=
  if n.rotation = v then n
  else { n with rotation := v, redrawCount := n.redrawCount + 1 }

/-- The `scaleX` setter. -/
def setScaleX (n : PropNode) (v : ℚ) : PropNode :=
  if n.scaleX = v then n
  else { n with scaleX := v, redrawCount := n.redrawCount + 1 }

/-- The `scaleY` setter. -/
def setScaleY (n : PropNode) (v : ℚ) : PropNode :=
  if n.scaleY = v then n
  else { n with scaleY := v, redrawCount := n.redrawCount + 1 }

/-- The `zIndex` setter (it additionally asks the parent to re-sort, which
is modelled by `setChildZIndex`; here only the redraw request is
tracked). -/
def setZIndex (n : PropNode) (v : ℚ) : PropNode :=
  if n.zIndex = v then n
  else { n with zIndex := v, redrawCount := n.redrawCount + 1 }

/-- A partial property bag passed to `setProps` (only the transform fields
relevant to redraw signalling). -/
structure PartialProps where
  x : Option ℚ := none
  y : Option ℚ := none
  rotation : Option ℚ := none
  scaleX : Option ℚ := none
  scaleY : Option ℚ := none
  zIndex : Option ℚ := none
deriving DecidableEq

/-- A supplied field goes through its setter; an absent one is skipped
(`Object.assign(this, newProps)` invokes the setters of exactly the
supplied keys). -/
def applyOpt (f : PropNode → ℚ → PropNode) (n : PropNode) : Option ℚ → PropNode
  | none => n
  | some v => f n v

/-- `Node.setProps(newProps)`: `Object.assign(this, newProps)` (runs the
diffing setters), re-derives the handler set, and then unconditionally
calls `this.requestRedraw()` ("Ensure redraw even for non-transform
props"). -/
def setProps (n : PropNode) (p : PartialProps) : PropNode :=
  let n1 := applyOpt setX n p.x
  let n2 := applyOpt setY n1 p.y
  let n3 := applyOpt setRotation n2 p.rotation
  let n4 := applyOpt setScaleX n3 p.scaleX
  let n5 := applyOpt setScaleY n4 p.scaleY
  let n6 := applyOpt setZIndex n5 p.zIndex
  { n6 with redrawCount := n6.redrawCount + 1 }

/-- C7 counterexample: the claim says a `setProps` call whose every
supplied field equals the node's current value triggers no redraw request,
but the code ends `setProps` with an unconditional `requestRedraw()`: on a
node with `x = 5` and no redraws issued yet, `setProps({x: 5})` leaves one
redraw request, not zero. -/
theorem setProps_noop_still_redraws :
    (⟨5, 0, 0, 1, 1, 0, 0⟩ : PropNode).x = 5 ∧
    (⟨5, 0, 0, 1, 1, 0, 0⟩ : PropNode).redrawCount = 0 ∧
    (setProps ⟨5, 0, 0, 1, 1, 0, 0⟩ { x := some 5 }).redrawCount ≠ 0 := by
  refine ⟨rfl, rfl, ?_⟩
  decide

/-- C7 as amended: `setProps` always issues exactly one unconditional
redraw request at the end; the diffing setters issue none when every
supplied field equals the node's current value, so such a call yields
exactly one redraw request (not zero), and a call supplying a changed `x`
yields exactly two (one from the setter, one unconditional). -/
theorem setProps_redraw_amended (n : PropNode) (p : PartialProps)
    (hx : ∀ v, p.x = some v → n.x = v)
    (hy : ∀ v, p.y = some v → n.y = v)
    (hr : ∀ v, p.rotation = some v → n.rotation = v)
    (hsx : ∀ v, p.scaleX = some v → n.scaleX = v)
    (hsy : ∀ v, p.scaleY = some v → n.scaleY = v)
    (hz : ∀ v, p.zIndex = some v → n.zIndex = v) :
    (setProps n p).redrawCount = n.redrawCount + 1 ∧
    (∀ v, v ≠ n.x →
      (setProps n { x := some v }).redrawCount = n.redrawCount + 2) := by
  constructor
  · have e1 : applyOpt setX n p.x = n := by
      cases hp : p.x with
      | none => rfl
      | some v => simp [applyOpt, setX, hx v hp]
    have e2 : applyOpt setY n p.y = n := by
      cases hp : p.y with
      | none => rfl
      | some v => simp [applyOpt, setY, hy v hp]
    have e3 : applyOpt setRotation n p.rotation = n := by
      cases hp : p.rotation with
      | none => rfl
      | some v => simp [applyOpt, setRotation, hr v hp]
    have e4 : applyOpt setScaleX n p.scaleX = n := by
      cases hp : p.scaleX with
      | none => rfl
      | some v => simp [applyOpt, setScaleX, hsx v hp]
    have e5 : applyOpt setScaleY n p.scaleY = n := by
      cases hp : p.scaleY with
      | none => rfl
      | some v => simp [applyOpt, setScaleY, hsy v hp]
    have e6 : applyOpt setZIndex n p.zIndex = n := by
      cases hp : p.zIndex with
      | none => rfl
      | some v => simp [applyOpt, setZIndex, hz v hp]
    simp only [setProps, e1, e2, e3, e4, e5, e6]
  · intro v hv
    have hne : ¬n.x = v := fun h => hv h.symm
    simp only [setProps, applyOpt, setX, if_neg hne]

/-- Witness for `setProps_redraw_amended`: on the node with `x = 5`, a
no-change call gives one redraw request and `setProps({x: 6})` gives
two. -/
theorem setProps_redraw_amended_witness :
    (setProps ⟨5, 0, 0, 1, 1, 0, 0⟩ { x := some 5 }).redrawCount = 0 + 1 ∧
    (setProps ⟨5, 0, 0, 1, 1, 0, 0⟩ { x := some 6 }).redrawCount = 0 + 2 := by
  have h := setProps_redraw_amended ⟨5, 0, 0, 1, 1, 0, 0⟩ { x := some 5 }
    (fun v hv => by cases hv; rfl) (fun v hv => by cases hv)
    (fun v hv => by cases hv) (fun v hv => by cases hv)
    (fun v hv => by cases hv) (fun v hv => by cases hv)
  exact ⟨h.1, h.2 6 (by norm_num)⟩

/-! ### `Container.remove` (`Container.ts`) -/

/-- The state touched by `Container.remove(node)`: the container's child
id sequence, the removed node's parent back-reference, and the number of
redraw requests issued by the operation. -/
structure RemoveState where
  children : List ℕ
  nodeParent : Option ℕ
  redrawCount : ℕ
deriving DecidableEq

/-- `Container.remove(node)`: `indexOf` the node; if present, splice it
out (first occurrence), clear `node.parent`, and request a redraw; if
absent (`indexOf === -1`), do nothing at all. -/
def removeChild (s : RemoveState) (n : ℕ) : RemoveState :=
  if n ∈ s.children then
    { children := s.children.erase n, nodeParent := none,
      redrawCount := s.redrawCount + 1 }
  else s

/-- C10: removing a node that is not among the container's children is a
complete no-op: child sequence, the node's parent back-reference and the
redraw-request count are all unchanged. -/
theorem remove_nonchild_noop (s : RemoveState) (n : ℕ) (h : n ∉ s.children) :
    removeChild s n = s := by
  simp [removeChild, h]

/-- Witness for `remove_nonchild_noop`: removing node 3 from a container
with children `[1, 2]` leaves everything (including a set parent
back-reference and redraw count) unchanged. -/
theorem remove_nonchild_noop_witness :
    removeChild ⟨[1, 2], some 7, 0⟩ 3 = ⟨[1, 2], some 7, 0⟩ :=
  remove_nonchild_noop ⟨[1, 2], some 7, 0⟩ 3 (by decide)

/-! ### Transformer drag handling (`Transformer.ts`) -/

theorem atan2_zero_of_pos (x : ℝ) (hx : 0 < x) : atan2 0 x = 0 := by
  simp [atan2, hx, Real.arctan_zero]

/-- `decompose()` recovers rotation 0 from any positively-scaled,
unrotated, unskewed matrix. -/
theorem decompose_rotation_diag (sx sy e f : ℝ) (hx : 0 < sx) (hy : 0 < sy) :
    (Matrix2D.mk sx 0 0 sy e f).decompose.rotation = 0 := by
  have h3 : ¬(sx < 0 ∧ 0 ≤ sy) := fun hc => lt_asymm hx hc.1
  norm_num [Matrix2D.decompose, atan2_zero_of_pos sy hy, atan2_zero_of_pos sx hx, h3]

/-- The drag-state snapshot of `Transformer` (`handleDragStart`): the
active anchor name, the pointer position at drag start, and the target's
scale/rotation/position at that moment. -/
structure DragState where
  activeAnchor : Option String
  startX : ℝ
  startY : ℝ
  startScaleX : ℝ
  startScaleY : ℝ
  startRotation : ℝ
  startXPos : ℝ
  startYPos : ℝ

/-- `Transformer.handleDragMove(e)` acting on the target's state `st`
(ancestor chain `anc`, self bounds `sb`) for a pointer at `(gx, gy)`.
Only the `'bottom-right'` anchor branch rescales (rotating the pointer
delta by the negative of the target's decomposed global rotation and
clamping each scale at 0.1); the `'rotator'` branch assigns
`atan2(pointer - boundsCenter) + π/2` as the absolute rotation; any other
anchor falls through with no mutation. -/
def handleDragMove (ds : DragState) (anc : List NodeState) (st : NodeState)
    (sb : Rect) (gx gy : ℝ) : NodeState :=
  match ds.activeAnchor with
  | none => st
  | some anchor =>
    let dx := gx - ds.startX
    let dy := gy - ds.startY
    if anchor = "bottom-right" then
      let rotation := ((globalTransformOf anc st).decompose).rotation
      let cosr := Real.cos (-rotation)
      let sinr := Real.sin (-rotation)
      let localDx := dx * cosr - dy * sinr
      let localDy := dx * sinr + dy * cosr
      let st1 :=
        if sb.width > 0 then
          { st with scaleX := max 0.1 ((sb.width * ds.startScaleX + localDx) / sb.width) }
        else st
      if sb.height > 0 then
        { st1 with scaleY := max 0.1 ((sb.height * ds.startScaleY + localDy) / sb.height) }
      else st1
    else if anchor = "rotator" then
      let b := globalBoundsOf anc st sb
      let cx := b.x + b.width / 2
      let cy := b.y + b.height / 2
      let angle := atan2 (gy - cy) (gx - cx)
      { st with rotation := angle + Real.pi / 2 }
    else
      st

/-- C8 counterexample: the claim asserts the resize formula for every
corner/edge anchor, but the code only implements it for `'bottom-right'`.
On a 100×100 target at scale 1, dragging the `'top-left'` anchor from
`(200,200)` to `(210,210)` leaves the target completely unchanged (scale
stays 1), while the claimed formula would give scale `(100·1+10)/100 =
1.1 ≠ 1`. -/
theorem transformer_corner_anchor_counterexample :
    handleDragMove ⟨some "top-left", 200, 200, 1, 1, 0, 0, 0⟩ []
        ⟨0, 100, 100, 0, 1, 1, 0⟩ ⟨0, 0, 100, 100⟩ 210 210 =
      ⟨0, 100, 100, 0, 1, 1, 0⟩ ∧
    (⟨0, 100, 100, 0, 1, 1, 0⟩ : NodeState).scaleX = 1 ∧
    ((100 : ℝ) * 1 + 10) / 100 = 11 / 10 ∧ (1 : ℝ) ≠ 11 / 10 := by
  refine ⟨?_, rfl, by norm_num, by norm_num⟩
  simp only [handleDragMove]
  rw [if_neg (by decide), if_neg (by decide)]

/-- C8 as amended: only the `'bottom-right'` anchor rescales.  For an
unrotated target at the root with positive scales and positive self
bounds, a `'bottom-right'` drag sets each axis scale to
`max 0.1 ((selfBoundsDimension · startScale + delta) / selfBoundsDimension)`
(the projected delta reduces to the raw delta at rotation 0); a drag on
any of the seven other corner/edge anchors leaves the target unchanged. -/
theorem transformer_bottom_right_spec (ds : DragState) (st : NodeState)
    (sb : Rect) (gx gy : ℝ)
    (hanchor : ds.activeAnchor = some "bottom-right")
    (hrot : st.rotation = 0) (hsx : 0 < st.scaleX) (hsy : 0 < st.scaleY)
    (hw : 0 < sb.width) (hh : 0 < sb.height) :
    handleDragMove ds [] st sb gx gy =
      { st with
          scaleX := max 0.1 ((sb.width * ds.startScaleX + (gx - ds.startX)) / sb.width)
          scaleY := max 0.1 ((sb.height * ds.startScaleY + (gy - ds.startY)) / sb.height) } ∧
    (∀ a ∈ (["top-left", "top-center", "top-right", "middle-right",
             "bottom-center", "bottom-left", "middle-left"] : List String),
      handleDragMove { ds with activeAnchor := some a } [] st sb gx gy = st) := by
  constructor
  · have hm : globalTransformOf [] st = ⟨st.scaleX, 0, 0, st.scaleY, st.x, st.y⟩ := by
      show getTransform st = _
      exact getTransform_eq_of_rotation_zero st hrot
    have hrot0 : ((globalTransformOf [] st).decompose).rotation = 0 := by
      rw [hm]
      exact decompose_rotation_diag _ _ _ _ hsx hsy
    simp only [handleDragMove, hanchor, if_true]
    rw [hrot0, if_pos hw, if_pos hh]
    simp only [neg_zero, Real.cos_zero, Real.sin_zero, mul_one, mul_zero,
      sub_zero, add_zero, zero_add]
  · intro a ha
    fin_cases ha <;>
      (simp only [handleDragMove]
       rw [if_neg (by decide), if_neg (by decide)])

/-- Witness for `transformer_bottom_right_spec`: the 100×100 target at
scale 1, dragged at `'bottom-right'` from `(200,200)` to `(210,210)`, ends
at scaleX = scaleY = 1.1 exactly. -/
theorem transformer_bottom_right_witness :
    handleDragMove ⟨some "bottom-right", 200, 200, 1, 1, 0, 0, 0⟩ []
        ⟨0, 100, 100, 0, 1, 1, 0⟩ ⟨0, 0, 100, 100⟩ 210 210 =
      { (⟨0, 100, 100, 0, 1, 1, 0⟩ : NodeState) with
          scaleX := max 0.1 ((100 * 1 + ((210 : ℝ) - 200)) / 100)
          scaleY := max 0.1 ((100 * 1 + ((210 : ℝ) - 200)) / 100) } ∧
    max (0.1 : ℝ) ((100 * 1 + ((210 : ℝ) - 200)) / 100) = 11 / 10 := by
  refine ⟨(transformer_bottom_right_spec ⟨some "bottom-right", 200, 200, 1, 1, 0, 0, 0⟩
    ⟨0, 100, 100, 0, 1, 1, 0⟩ ⟨0, 0, 100, 100⟩ 210 210 rfl rfl (by norm_num)
    (by norm_num) (by norm_num) (by norm_num)).1, ?_⟩
  rw [max_eq_right (by norm_num)]
  norm_num

/-- C9: a drag on the rotate anchor assigns the target's rotation
absolutely — independent of every drag-start snapshot value — as
`atan2(pointer − globalBoundsCenter) + π/2`; concretely, for a 100×100
target at `(100,100)` (global-bounds center `(150,150)`), dragging to
`(230,150)` sets rotation to exactly `π/2`. -/
theorem transformer_rotate_spec (ds : DragState)
    (hanchor : ds.activeAnchor = some "rotator") :
    (∀ (anc : List NodeState) (st : NodeState) (sb : Rect) (gx gy : ℝ),
      handleDragMove ds anc st sb gx gy =
        { st with rotation :=
                    atan2
                      (gy - ((globalBoundsOf anc st sb).y + (globalBoundsOf anc st sb).height / 2))
                      (gx - ((globalBoundsOf anc st sb).x + (globalBoundsOf anc st sb).width / 2)) +
                    Real.pi / 2 }) ∧
    (∀ st : NodeState, st.x = 100 → st.y = 100 → st.rotation = 0 →
      st.scaleX = 1 → st.scaleY = 1 →
      handleDragMove ds [] st ⟨0, 0, 100, 100⟩ 230 150 =
        { st with rotation := Real.pi / 2 }) := by
  have hgen : ∀ (anc : List NodeState) (st : NodeState) (sb : Rect) (gx gy : ℝ),
      handleDragMove ds anc st sb gx gy =
        { st with rotation :=
                    atan2
                      (gy - ((globalBoundsOf anc st sb).y + (globalBoundsOf anc st sb).height / 2))
                      (gx - ((globalBoundsOf anc st sb).x + (globalBoundsOf anc st sb).width / 2)) +
                    Real.pi / 2 } := by
    intro anc st sb gx gy
    simp only [handleDragMove, hanchor]
    rw [if_neg (by decide), if_pos trivial]
  refine ⟨hgen, ?_⟩
  intro st hx hy hrot hsx hsy
  have hm : globalTransformOf [] st = ⟨1, 0, 0, 1, 100, 100⟩ := by
    show getTransform st = _
    rw [getTransform_eq_of_rotation_zero st hrot, hx, hy, hsx, hsy]
  have hb : globalBoundsOf [] st ⟨0, 0, 100, 100⟩ = ⟨100, 100, 100, 100⟩ := by
    rw [globalBoundsOf, hm,
      boundsThrough_diag _ _ _ _ ⟨0, 0, 100, 100⟩ (by norm_num) (by norm_num)
        (by norm_num) (by norm_num)]
    simp only [Rect.mk.injEq]
    norm_num
  rw [hgen [] st ⟨0, 0, 100, 100⟩ 230 150, hb]
  have h150 : (150 : ℝ) - ((100 : ℝ) + (100 : ℝ) / 2) = 0 := by norm_num
  have h230 : (230 : ℝ) - ((100 : ℝ) + (100 : ℝ) / 2) = 80 := by norm_num
  rw [show ((⟨100, 100, 100, 100⟩ : Rect).y + (⟨100, 100, 100, 100⟩ : Rect).height / 2) =
      (100 : ℝ) + (100 : ℝ) / 2 from rfl,
    show ((⟨100, 100, 100, 100⟩ : Rect).x + (⟨100, 100, 100, 100⟩ : Rect).width / 2) =
      (100 : ℝ) + (100 : ℝ) / 2 from rfl,
    h150, h230, atan2_zero_of_pos 80 (by norm_num), zero_add]

/-- Witness for `transformer_rotate_spec`: the concrete rotate-handle drag
ending directly right of the bounds center `(150,150)` yields rotation
`π/2`. -/
theorem transformer_rotate_witness :
    handleDragMove ⟨some "rotator", 150, 70, 1, 1, 0, 0, 0⟩ []
        ⟨0, 100, 100, 0, 1, 1, 0⟩ ⟨0, 0, 100, 100⟩ 230 150 =
      { (⟨0, 100, 100, 0, 1, 1, 0⟩ : NodeState) with rotation := Real.pi / 2 } :=
  (transformer_rotate_spec ⟨some "rotator", 150, 70, 1, 1, 0, 0, 0⟩ rfl).2
    ⟨0, 100, 100, 0, 1, 1, 0⟩ rfl rfl rfl rfl rfl

end CanvasReact
